import Mathlib

/-!
# Verification of the cloud-migration-tool reactive core

Shallow embedding of the frontend's reactive-propagation layer:

* `frontend/src/store/eligiblesStore.js` — the observable persistent store
  (`getEligibles` / `setEligibles` / `subscribeEligibles`), modelled over a
  JavaScript-value type `JVal` because the store works on arbitrary values;
* `frontend/src/store/activityStore.js` — the bounded activity log
  (`addActivity` / `getActivities` / `subscribeActivities`);
* `frontend/src/components/InstanceRecommender.js` — the recommendation
  pipeline (`handleSubmit`, ranked display via `displayRows`);
* `frontend/src/components/IaCGenerator.js` — the downstream reconciler
  (subscription callback that repoints the selected instance type).

JavaScript numbers are modelled as `ℚ` (only comparisons and subtractions
occur, whose signs agree with the float computation on the values in play);
fallible operations (network calls, a subscriber callback that may throw)
are modelled with `Except`.
-/

/-- A JavaScript value, as far as the store's persistence layer needs it:
`JSON.parse` can produce null, booleans, numbers, strings, arrays, objects. -/
inductive JVal where
  | null : JVal
  | bool : Bool → JVal
  | num : ℚ → JVal
  | str : String → JVal
  | arr : List JVal → JVal
  | obj : List (String × JVal) → JVal

/-- JavaScript truthiness of a value (`v || fallback` keeps `v` iff truthy). -/
def JVal.truthy : JVal → Bool
  | .null => false
  | .bool b => b
  | .num q => q != 0
  | .str s => s != ""
  | .arr _ => true
  | .obj _ => true

/-- The `Array.isArray` test. -/
def JVal.isArr : JVal → Bool
  | .arr _ => true
  | _ => false

/-- Startup initializer of `_eligibles` in `eligiblesStore.js`:
`try { return JSON.parse(localStorage.getItem(KEY)) || []; } catch { return []; }`.
The argument is the outcome of the read-and-parse: `.error` when
`localStorage` access or `JSON.parse` throws, `.ok v` when parsing yielded
the value `v` (a missing key parses as `null`). -/
def initEligibles (loaded : Except Unit JVal) : JVal :=
  match loaded with
  | .error _ => .arr []
  | .ok v => if v.truthy then v else .arr []

/-- The store's state: the in-memory value `_eligibles` and the durable
snapshot held by `localStorage` under the reserved key (`none` when the
last save attempt failed or nothing was ever saved). -/
structure EligiblesStore where
  value : JVal
  durable : Option JVal

/-- The read operation `getEligibles()`. -/
def getEligibles (s : EligiblesStore) : JVal := s.value

/-- The write operation `setEligibles(rows)` from `eligiblesStore.js`:
normalize a non-array argument to `[]`, update `_eligibles`, attempt the
durable save (a failure is swallowed by the empty `catch`), then notify.
`saveFails` says whether `localStorage.setItem` throws on this call.
Returns the new store state together with the value passed to every
subscriber callback (the already-updated `_eligibles`). -/
def setEligibles (s : EligiblesStore) (rows : JVal) (saveFails : Bool) :
    EligiblesStore × JVal :=
  let nv := if rows.isArr then rows else .arr []
  let s1 : EligiblesStore :=
    { value := nv, durable := if saveFails then s.durable else some nv }
  (s1, nv)

/-- One notification pass of `setEligibles`:
`subscribers.forEach((fn) => { try { fn(_eligibles); } catch {} });`.
A subscriber is a callback that either returns or throws; the per-call
`try`/`catch` swallows the throw, so iteration always continues.  The
result counts how many subscribers were invoked. -/
def storeNotifyCount {α : Type} : List (α → Except Unit Unit) → α → Nat
  | [], _ => 0
  | f :: fs, v =>
    match f v with
    | .ok _ => 1 + storeNotifyCount fs v
    | .error _ => 1 + storeNotifyCount fs v

/-- One notification pass of `addActivity`:
`_subs.forEach((fn) => fn(_rows));` — no `try`/`catch`, so a throwing
callback propagates out of `forEach` and the remaining subscribers are
never invoked.  The result counts how many subscribers were invoked. -/
def logNotifyCount {α : Type} : List (α → Except Unit Unit) → α → Nat
  | [], _ => 0
  | f :: fs, v =>
    match f v with
    | .ok _ => 1 + logNotifyCount fs v
    | .error _ => 1

/-- Whether a callback returns normally on `v`. -/
def cbOk {α : Type} (v : α) (f : α → Except Unit Unit) : Bool :=
  match f v with
  | .ok _ => true
  | .error _ => false

/-! ## The recommendation pipeline (`InstanceRecommender.js`) -/

/-- One row of the candidate table: `{instance_type, vCPU, memory_GB}` from
the eligible-candidates lookup, plus the `price_per_hour` attached by the
merge (`null` — here `none` — is the absent price). -/
structure Row where
  instance_type : String
  vCPU : Nat
  memory_GB : ℚ
  price_per_hour : Option ℚ := none
deriving DecidableEq, Repr

/-- One row of the batch-price response: `{instance_type, price_per_hour}`;
the price field itself may be `null` in the payload. -/
structure PriceRow where
  instance_type : String
  price_per_hour : Option ℚ
deriving DecidableEq, Repr

/-- The price map built by
`for (const r of priceRes.data?.rows ?? []) priceMap[r.instance_type] = r.price_per_hour;`
— object assignment: for a repeated key the last row wins; a missing key and
a `null` stored value are indistinguishable to the `p == null` test in the
merge, so both collapse to `none`. -/
def lookupPrice (rows : List PriceRow) (s : String) : Option ℚ :=
  ((rows.filter (fun r => r.instance_type == s)).getLast?).bind
    (fun r => r.price_per_hour)

/-- The merge's price test: `p == null || p <= 0 ? null : p` —
a missing or non-positive looked-up price is normalized to absent. -/
def normalizePrice (p : Option ℚ) : Option ℚ :=
  match p with
  | none => none
  | some q => if q ≤ 0 then none else some q

/-- The merge `merged = rawRows.map((r) => ({ ...r, price_per_hour: ... }))`. -/
def mergeRows (raw : List Row) (pm : String → Option ℚ) : List Row :=
  raw.map (fun r => { r with price_per_hour := normalizePrice (pm r.instance_type) })

/-- The eligible-candidates response body, as far as `handleSubmit` reads
it: `data.first_20` is `some l` when that field is an array `l`, `none`
when it is missing or not an array (the `Array.isArray` test fails). -/
structure EligiblesData where
  first_20 : Option (List Row)
deriving DecidableEq, Repr

/-- The batch-price response body: `data.rows` may be missing
(`priceRes.data?.rows ?? []`). -/
structure PriceData where
  rows : Option (List PriceRow)
deriving DecidableEq, Repr

/-- The extraction `rawRows = Array.isArray(data.first_20) ? data.first_20.slice(0, 10) : []`. -/
def rawRowsOf (data : EligiblesData) : List Row :=
  match data.first_20 with
  | some l => l.take 10
  | none => []

/-- JavaScript `a || b` for an optional string (`""` is falsy):
`errData?.error || "…"`. -/
def strOr (v : Option String) (d : String) : String :=
  match v with
  | some s => if s == "" then d else s
  | none => d

/-- The terminal state of one `handleSubmit` run, as observable through
the component's `error` and `eligibles` state. -/
inductive RunOutcome where
  | fetchFailed (msg : String) : RunOutcome
  | noCandidates (msg : String) : RunOutcome
  | runError (msg : String) : RunOutcome
  | published (rows : List Row) : RunOutcome
deriving DecidableEq, Repr

/-- The decision core of `handleSubmit` in `InstanceRecommender.js`
(lines 49–102).  `eligiblesRes` is the settled outcome of
`fetchEligibles` (`.error errData` carries `eligiblesRes.reason?.response?.data?.error`,
`none` when there is no such field); `priceRes` is the outcome of
`await priceInstances(names)` — a rejection there is caught by the outer
`catch`, which sets the generic error.  The `recommendInstance` result only
feeds the separate `instance` state and is irrelevant to the list. -/
def handleSubmit (eligiblesRes : Except (Option String) EligiblesData)
    (priceRes : Except Unit PriceData) : RunOutcome :=
  match eligiblesRes with
  | .error errData =>
    .fetchFailed (strOr errData "Failed to fetch eligible instances.")
  | .ok data =>
    let rawRows := rawRowsOf data
    if rawRows.isEmpty then
      .noCandidates "No instances meet the requirements in this region."
    else
      match priceRes with
      | .error _ => .runError "Something went wrong. Please try again."
      | .ok pd => .published (mergeRows rawRows (lookupPrice (pd.rows.getD [])))

/-- The component's `eligibles` state after one run, given its value
before the run: `handleSubmit` starts with `setEligibles([])`, so the
previous list never survives a run; only the publish step repopulates it. -/
def eligiblesAfter (_prev : List Row) (o : RunOutcome) : List Row :=
  match o with
  | .published m => m
  | _ => []

/-- The sort comparator inside `displayRows` (lines 111–130), returning the
JavaScript comparator's numeric value:
nulls last, then ascending price, ties by ascending `vCPU` then
ascending `memory_GB` (also between two null-priced rows). -/
def sortCmp (a b : Row) : ℚ :=
  match a.price_per_hour, b.price_per_hour with
  | none, none =>
    if a.vCPU ≠ b.vCPU then (a.vCPU : ℚ) - (b.vCPU : ℚ)
    else a.memory_GB - b.memory_GB
  | none, some _ => 1
  | some _, none => -1
  | some ap, some bp =>
    if ap ≠ bp then ap - bp
    else if a.vCPU ≠ b.vCPU then (a.vCPU : ℚ) - (b.vCPU : ℚ)
    else a.memory_GB - b.memory_GB

/-- Row `a` may come no later than row `b` under the comparator. -/
def sortLe (a b : Row) : Prop := sortCmp a b ≤ 0

instance : DecidableRel sortLe := fun a b =>
  inferInstanceAs (Decidable (sortCmp a b ≤ 0))

/-- The view list `displayRows`: a copy of `eligibles`, sorted when
the sort-by-price toggle is on, unchanged otherwise.  `Array.prototype.sort`
and `List.insertionSort` are both stable, so with this comparator they
produce the same list. -/
def displayRows (sortByPrice : Bool) (eligibles : List Row) : List Row :=
  if sortByPrice then List.insertionSort sortLe eligibles else eligibles

/-! ## The bounded activity log (`activityStore.js`) -/

/-- The argument of `addActivity`: `id` and `ts` may be missing (or falsy —
the code uses `||`, under which the empty string and `0` also count as
missing). -/
structure ActivityInput where
  id : Option String := none
  ts : Option Nat := none
  kind : String
  region : Option String := none
  instance_id : Option String := none
  instance_type : Option String := none
deriving DecidableEq, Repr

/-- A completed log row (after `id`/`ts` defaulting). -/
structure ActivityRow where
  id : String
  ts : Nat
  kind : String
  region : Option String
  instance_id : Option String
  instance_type : Option String
deriving DecidableEq, Repr

/-- JavaScript `v || d` for an optional number (`0` is falsy). -/
def numOr (v : Option Nat) (d : Nat) : Nat :=
  match v with
  | some n => if n == 0 then d else n
  | none => d

/-- The row built by `addActivity`:
`{ id: evt.id || cryptoRandom(), ts: evt.ts || Date.now(), ...evt }`.
`genId` and `now` stand for `cryptoRandom()` and `Date.now()`; the trailing
spread re-copies `evt`'s own fields, which for a present truthy `id`/`ts`
writes back the same value. -/
def mkActivityRow (genId : String) (now : Nat) (evt : ActivityInput) : ActivityRow :=
  { id := strOr evt.id genId
    ts := numOr evt.ts now
    kind := evt.kind
    region := evt.region
    instance_id := evt.instance_id
    instance_type := evt.instance_type }

/-- The append `_rows = [row, ..._rows].slice(0, 100);` — prepend, keep latest 100. -/
def addActivity (genId : String) (now : Nat) (evt : ActivityInput)
    (rows : List ActivityRow) : List ActivityRow :=
  ((mkActivityRow genId now evt) :: rows).take 100

/-- A sequence of `addActivity` calls starting from the empty log; each call
comes with the `cryptoRandom()` and `Date.now()` values of that invocation. -/
def runLog (calls : List (String × Nat × ActivityInput)) : List ActivityRow :=
  calls.foldl (fun rows c => addActivity c.1 c.2.1 c.2.2 rows) []

/-! ## The downstream reconciler (`IaCGenerator.js`) -/

/-- The body of the `subscribeEligibles` callback in `IaCGenerator`
(lines 17–29), reduced to the new value of `selectedType`:
`if (!rows.length) setSelectedType(""); else if (!rows.find((r) => r.instance_type === selectedType)) setSelectedType(rows[0].instance_type);`. -/
def onStoreNotify (rows : List Row) (selectedType : String) : String :=
  if rows.length == 0 then ""
  else if (rows.find? (fun r => r.instance_type == selectedType)).isSome then
    selectedType
  else ((rows.head?).map (fun r => r.instance_type)).getD ""

/-! ## Properties of the ranking comparator -/

/-- The resource tie-break of the ranking rule: ascending `vCPU`, then
ascending `memory_GB`. -/
def tieLe (a b : Row) : Prop :=
  a.vCPU < b.vCPU ∨ (a.vCPU = b.vCPU ∧ a.memory_GB ≤ b.memory_GB)

/-- The ordering the ranking rule promises between a row and any row placed
after it: an absent price never precedes a present one, present prices are
non-decreasing, and ties (also between two absent prices) fall back to the
resource tie-break. -/
def rankedBefore (a b : Row) : Prop :=
  match a.price_per_hour, b.price_per_hour with
  | none, none => tieLe a b
  | none, some _ => False
  | some _, none => True
  | some ap, some bp => ap < bp ∨ (ap = bp ∧ tieLe a b)

theorem tieLe_trans {a b c : Row} (h1 : tieLe a b) (h2 : tieLe b c) : tieLe a c := by
  rcases h1 with h1 | ⟨e1, m1⟩ <;> rcases h2 with h2 | ⟨e2, m2⟩
  · exact Or.inl (h1.trans h2)
  · exact Or.inl (e2 ▸ h1)
  · exact Or.inl (e1 ▸ h2)
  · exact Or.inr ⟨e1.trans e2, m1.trans m2⟩

/-- The comparator's sign agrees with the promised ordering. -/
theorem sortLe_iff (a b : Row) : sortLe a b ↔ rankedBefore a b := by
  unfold sortLe sortCmp rankedBefore tieLe
  rcases a.price_per_hour with _ | ap <;> rcases b.price_per_hour with _ | bp <;>
    dsimp only
  · split_ifs with h
    · rw [sub_nonpos, Nat.cast_le]
      constructor
      · intro hle
        exact Or.inl (lt_of_le_of_ne hle h)
      · rintro (hlt | ⟨heq, -⟩)
        · exact hlt.le
        · exact absurd heq h
    · push_neg at h
      rw [sub_nonpos]
      constructor
      · intro hm
        exact Or.inr ⟨h, hm⟩
      · rintro (hlt | ⟨-, hm⟩)
        · omega
        · exact hm
  · norm_num
  · norm_num
  · split_ifs with hp hv
    · rw [sub_nonpos]
      constructor
      · intro hle
        exact Or.inl (lt_of_le_of_ne hle hp)
      · rintro (hlt | ⟨heq, -⟩)
        · exact hlt.le
        · exact absurd heq hp
    · push_neg at hp
      rw [sub_nonpos, Nat.cast_le]
      constructor
      · intro hle
        exact Or.inr ⟨hp, Or.inl (lt_of_le_of_ne hle hv)⟩
      · rintro (hlt | ⟨-, hlt' | ⟨heq, -⟩⟩)
        · exact absurd hp hlt.ne
        · exact hlt'.le
        · exact absurd heq hv
    · push_neg at hp hv
      rw [sub_nonpos]
      constructor
      · intro hm
        exact Or.inr ⟨hp, Or.inr ⟨hv, hm⟩⟩
      · rintro (hlt | ⟨-, hlt' | ⟨-, hm⟩⟩)
        · exact absurd hp hlt.ne
        · omega
        · exact hm

/-- The comparator is antisymmetric in the JavaScript sense:
swapping the arguments negates the returned number. -/
theorem sortCmp_swap (a b : Row) : sortCmp b a = -sortCmp a b := by
  unfold sortCmp
  rcases a.price_per_hour with _ | ap <;> rcases b.price_per_hour with _ | bp <;>
    dsimp only
  · by_cases hv : a.vCPU = b.vCPU
    · rw [if_neg (by omega), if_neg (by omega)]
      ring
    · rw [if_pos (by omega), if_pos (by omega)]
      ring
  · norm_num
  · by_cases hp : ap = bp
    · rw [if_neg (show ¬bp ≠ ap from fun h => h hp.symm),
        if_neg (show ¬ap ≠ bp from fun h => h hp)]
      by_cases hv : a.vCPU = b.vCPU
      · rw [if_neg (by omega), if_neg (by omega)]
        ring
      · rw [if_pos (by omega), if_pos (by omega)]
        ring
    · rw [if_pos (show bp ≠ ap from fun h => hp h.symm), if_pos hp]
      ring

instance : IsTotal Row sortLe :=
  ⟨fun a b => by
    unfold sortLe
    rw [sortCmp_swap a b]
    rcases le_total (sortCmp a b) 0 with h | h
    · exact Or.inl h
    · exact Or.inr (by linarith)⟩

instance : IsTrans Row sortLe :=
  ⟨fun a b c hab hbc => by
    rw [sortLe_iff] at hab hbc ⊢
    unfold rankedBefore at hab hbc ⊢
    rcases hpa : a.price_per_hour with _ | ap <;>
      rcases hpb : b.price_per_hour with _ | bp <;>
        rcases hpc : c.price_per_hour with _ | cp <;>
          rw [hpa, hpb] at hab <;> rw [hpb, hpc] at hbc <;>
            dsimp only at hab hbc ⊢
    · exact tieLe_trans hab hbc
    · rcases hab with h1 | ⟨e1, t1⟩ <;> rcases hbc with h2 | ⟨e2, t2⟩
      · exact Or.inl (h1.trans h2)
      · exact Or.inl (e2 ▸ h1)
      · exact Or.inl (e1 ▸ h2)
      · exact Or.inr ⟨e1.trans e2, tieLe_trans t1 t2⟩⟩

/-- C2 — For every merged candidate list, the ranking places every
absent-price entry after every present-price entry, orders present-price
entries non-decreasing by price, and breaks ties (including between two
absent-price entries) by ascending vCPU and then ascending memory_GB;
moreover it is a permutation of its input. -/
theorem C2_ranking_rule (rows : List Row) :
    (displayRows true rows).Pairwise rankedBefore ∧
      (displayRows true rows).Perm rows := by
  constructor
  · have h : (List.insertionSort sortLe rows).Pairwise sortLe :=
      List.sorted_insertionSort sortLe rows
    simpa [displayRows] using h.imp fun hab => (sortLe_iff _ _).1 hab
  · simpa [displayRows] using List.perm_insertionSort sortLe rows

/-! ## The bounded log: capacity and order -/

theorem take_append_take {α : Type} (n : Nat) (l m : List α) :
    (l ++ m.take n).take n = (l ++ m).take n := by
  rw [List.take_append_eq_append_take, List.take_append_eq_append_take,
    List.take_take, Nat.min_eq_left (Nat.sub_le n l.length)]

/-- Folding `addActivity` over a call sequence keeps the newest 100
completed rows, newest first. -/
theorem foldl_addActivity_eq (calls : List (String × Nat × ActivityInput))
    (acc : List ActivityRow) (hacc : acc.length ≤ 100) :
    calls.foldl (fun rows c => addActivity c.1 c.2.1 c.2.2 rows) acc =
      ((calls.map (fun c => mkActivityRow c.1 c.2.1 c.2.2)).reverse ++ acc).take 100 := by
  induction calls generalizing acc with
  | nil => simp [List.take_of_length_le hacc]
  | cons c cs ih =>
    rw [List.foldl_cons]
    rw [ih (addActivity c.1 c.2.1 c.2.2 acc)
      (by simp [addActivity])]
    show ((cs.map _).reverse ++ (_ :: acc).take 100).take 100 = _
    rw [take_append_take]
    simp [List.append_assoc]

/-- C5 — For every sequence of `append` calls starting from the empty log,
the log's length never exceeds 100 and its content is the reversal of the
call sequence (newest first) truncated to 100; in particular after 101
appends the log holds exactly 100 entries, the oldest (first-appended)
one evicted. -/
theorem C5_log_capacity_newest_first (calls : List (String × Nat × ActivityInput)) :
    (runLog calls).length ≤ 100 ∧
      runLog calls =
        ((calls.map (fun c => mkActivityRow c.1 c.2.1 c.2.2)).reverse).take 100 ∧
      (calls.length = 101 →
        (runLog calls).length = 100 ∧
          runLog calls =
            ((calls.map (fun c => mkActivityRow c.1 c.2.1 c.2.2)).drop 1).reverse) := by
  have heq : runLog calls =
      ((calls.map (fun c => mkActivityRow c.1 c.2.1 c.2.2)).reverse).take 100 := by
    rw [runLog, foldl_addActivity_eq calls [] (by simp)]
    simp
  refine ⟨?_, heq, ?_⟩
  · rw [heq, List.length_take]
    exact Nat.min_le_left ..
  · intro h101
    constructor
    · rw [heq, List.length_take]
      simp [h101]
    · rw [heq, List.take_reverse]
      simp [h101]

/-- Concrete check of C5 at 101 identical append calls. -/
theorem C5_log_capacity_newest_first_witness :
    (runLog (List.replicate 101 ("gen-id", 7, ({ kind := "provision:create", region := some "us-east-1" } : ActivityInput)))).length = 100 :=
  ((C5_log_capacity_newest_first
    (List.replicate 101 ("gen-id", 7, { kind := "provision:create", region := some "us-east-1" }))).2.2
    (by simp)).1

/-! ## The reconciler -/

/-- C6 — On every Store notification: an empty new list clears the
Selection; a list that still contains the selected `instance_type` leaves
it untouched; otherwise the Selection is repointed to the new list's first
entry. -/
theorem C6_reconciler_selection (rows : List Row) (sel : String) :
    (rows = [] → onStoreNotify rows sel = "") ∧
      ((∃ r ∈ rows, r.instance_type = sel) → onStoreNotify rows sel = sel) ∧
      (∀ r0 rs, rows = r0 :: rs → (∀ r ∈ rows, r.instance_type ≠ sel) →
        onStoreNotify rows sel = r0.instance_type) := by
  refine ⟨?_, ?_, ?_⟩
  · rintro rfl
    rfl
  · rintro ⟨r, hr, he⟩
    have hne : rows ≠ [] := by
      rintro rfl
      exact absurd hr (List.not_mem_nil r)
    have hfind : (rows.find? (fun x => x.instance_type == sel)).isSome := by
      rw [List.find?_isSome]
      exact ⟨r, hr, by simp [he]⟩
    unfold onStoreNotify
    rw [if_neg (by simp [List.length_eq_zero, hne]), if_pos hfind]
  · rintro r0 rs rfl habsent
    have hfind : ((r0 :: rs).find? (fun x => x.instance_type == sel)) = none := by
      rw [List.find?_eq_none]
      intro x hx
      simp [habsent x hx]
    unfold onStoreNotify
    rw [if_neg (by simp), hfind]
    rfl

/-- Concrete check of C6: selection `m5.large` is repointed to the first
entry of a new list that lacks it. -/
theorem C6_reconciler_selection_witness :
    onStoreNotify [(⟨"t3.micro", 2, 1, none⟩ : Row)] "m5.large" = "t3.micro" :=
  (C6_reconciler_selection _ "m5.large").2.2
    (⟨"t3.micro", 2, 1, none⟩ : Row) [] rfl (by decide)

/-! ## Store startup -/

/-- C7 counterexample — a durable value that parses to a truthy non-array
(here the object `{a: 1}`) is kept as the initial value instead of being
replaced by the empty list, refuting the claim that every parsed non-array
yields the empty list. -/
theorem C7_counterexample :
    (initEligibles (Except.ok (JVal.obj [("a", JVal.num 1)]))).isArr = false ∧
      initEligibles (Except.ok (JVal.obj [("a", JVal.num 1)])) ≠ JVal.arr [] := by
  refine ⟨rfl, fun h => ?_⟩
  exact JVal.noConfusion h

/-- C7 amended — a load error (unparsable or inaccessible value) and a
falsy parsed value yield the empty list; a truthy parsed value — array or
not — is kept as-is (the `|| []` fallback checks truthiness, not
`Array.isArray`). -/
theorem C7_startup_fallback (v : JVal) (e : Unit) :
    initEligibles (Except.error e) = JVal.arr [] ∧
      (v.truthy = false → initEligibles (Except.ok v) = JVal.arr []) ∧
      (v.truthy = true → initEligibles (Except.ok v) = v) := by
  refine ⟨rfl, ?_, ?_⟩ <;> intro h <;> simp [initEligibles, h]

/-- Concrete check of C7 (amended): a `null` snapshot yields the empty list. -/
theorem C7_startup_fallback_witness :
    JVal.null.truthy = false ∧ initEligibles (Except.ok JVal.null) = JVal.arr [] :=
  ⟨rfl, (C7_startup_fallback JVal.null ()).2.1 rfl⟩

/-! ## Notification isolation -/

/-- C9 counterexample — the Event Log's notification pass is not isolated:
with a throwing first subscriber, only 1 of 2 subscribers is invoked
(`addActivity` runs its `forEach` without a per-callback `try`/`catch`). -/
theorem C9_counterexample :
    logNotifyCount
        [fun _ => (Except.error () : Except Unit Unit),
          fun _ => (Except.ok () : Except Unit Unit)] (0 : Nat) = 1 ∧
      ([fun _ => (Except.error () : Except Unit Unit),
          fun _ => (Except.ok () : Except Unit Unit)] : List (Nat → Except Unit Unit)).length = 2 :=
  ⟨rfl, rfl⟩

theorem storeNotifyCount_cons {α : Type} (f : α → Except Unit Unit)
    (fs : List (α → Except Unit Unit)) (v : α) :
    storeNotifyCount (f :: fs) v = 1 + storeNotifyCount fs v := by
  simp only [storeNotifyCount]
  rcases f v with u | u <;> rfl

theorem logNotifyCount_cons_error {α : Type} {f : α → Except Unit Unit}
    (fs : List (α → Except Unit Unit)) {v : α} {u : Unit} (hf : f v = .error u) :
    logNotifyCount (f :: fs) v = 1 := by
  simp only [logNotifyCount, hf]

theorem logNotifyCount_cons_ok {α : Type} {f : α → Except Unit Unit}
    (fs : List (α → Except Unit Unit)) {v : α} {u : Unit} (hf : f v = .ok u) :
    logNotifyCount (f :: fs) v = 1 + logNotifyCount fs v := by
  simp only [logNotifyCount, hf]

/-- C9 amended — the Store's notification pass is isolated (every
subscriber is invoked no matter which callbacks throw), but the Event
Log's is not: it delivers only up to and including the first throwing
subscriber. -/
theorem C9_notify_isolation {α : Type} (subs : List (α → Except Unit Unit)) (v : α) :
    storeNotifyCount subs v = subs.length ∧
      logNotifyCount subs v = min subs.length ((subs.takeWhile (cbOk v)).length + 1) := by
  induction subs with
  | nil => exact ⟨rfl, rfl⟩
  | cons f fs ih =>
    constructor
    · rw [storeNotifyCount_cons, ih.1, List.length_cons]
      omega
    · rcases hf : f v with u | u
      · have hcb : cbOk v f = false := by simp [cbOk, hf]
        rw [logNotifyCount_cons_error fs hf, List.takeWhile_cons, hcb,
          if_neg (by simp)]
        simp only [List.length_nil, List.length_cons]
        omega
      · have hcb : cbOk v f = true := by simp [cbOk, hf]
        rw [logNotifyCount_cons_ok fs hf, ih.2, List.takeWhile_cons, hcb,
          if_pos rfl]
        simp only [List.length_cons]
        omega

/-! ## Store write (C10) -/

/-- C10 — `setEligibles` stores the argument itself when it is an array and
the empty list otherwise; the value handed to every subscriber is exactly
the stored value (hence always an array); a read after the write returns
that same value; and a failing durable save changes neither the stored
value nor the notified value (the in-memory update precedes — and is
independent of — the save attempt). -/
theorem C10_store_write_normalizes (s : EligiblesStore) (v : JVal) (saveFails : Bool) :
    (setEligibles s v saveFails).1.value = (if v.isArr then v else JVal.arr []) ∧
      (setEligibles s v saveFails).2 = (setEligibles s v saveFails).1.value ∧
      ((setEligibles s v saveFails).2).isArr = true ∧
      getEligibles (setEligibles s v saveFails).1 = (setEligibles s v saveFails).2 ∧
      (setEligibles s v true).1.value = (setEligibles s v false).1.value ∧
      (setEligibles s v true).2 = (setEligibles s v false).2 := by
  refine ⟨rfl, rfl, ?_, rfl, rfl, rfl⟩
  cases v <;> rfl

/-! ## Pipeline runs (C1, C3, C4, C8) -/

theorem handleSubmit_ok_ok (data : EligiblesData) (pd : PriceData)
    (hne : rawRowsOf data ≠ []) :
    handleSubmit (.ok data) (.ok pd) =
      .published (mergeRows (rawRowsOf data) (lookupPrice (pd.rows.getD []))) := by
  simp only [handleSubmit]
  rw [if_neg (by simpa [List.isEmpty_iff] using hne)]

theorem handleSubmit_ok_error (data : EligiblesData) (hne : rawRowsOf data ≠ []) :
    handleSubmit (.ok data) (.error ()) =
      .runError "Something went wrong. Please try again." := by
  simp only [handleSubmit]
  rw [if_neg (by simpa [List.isEmpty_iff] using hne)]

/-- C1 counterexample — a pipeline run that reaches the publish step
publishes the merged list in upstream pre-order, not the ranked list: on
this input the published list differs from its own ranking, so the value
written by the publish step is not the ranked candidate list. -/
theorem C1_counterexample :
    handleSubmit
        (Except.ok ⟨some [⟨"a.large", 4, 8, none⟩, ⟨"b.small", 2, 4, none⟩]⟩)
        (Except.ok ⟨some [⟨"a.large", some 5⟩, ⟨"b.small", some 3⟩]⟩) =
      RunOutcome.published
        [⟨"a.large", 4, 8, some 5⟩, ⟨"b.small", 2, 4, some 3⟩] ∧
      displayRows true [⟨"a.large", 4, 8, some 5⟩, ⟨"b.small", 2, 4, some 3⟩] =
        [⟨"b.small", 2, 4, some 3⟩, ⟨"a.large", 4, 8, some 5⟩] ∧
      ([⟨"a.large", 4, 8, some 5⟩, ⟨"b.small", 2, 4, some 3⟩] : List Row) ≠
        [⟨"b.small", 2, 4, some 3⟩, ⟨"a.large", 4, 8, some 5⟩] := by
  have hnot : ¬ sortLe (⟨"a.large", 4, 8, some 5⟩ : Row) ⟨"b.small", 2, 4, some 3⟩ := by
    unfold sortLe sortCmp
    norm_num
  refine ⟨by decide, ?_, by decide⟩
  simp [displayRows, List.insertionSort, List.orderedInsert, hnot]

/-- C1 amended — after every run that reaches the publish step, the merged
candidate list is written into the recommendation view's local candidate
state in upstream pre-order (the base fields keep the order of the first
ten raw candidates); the ranked order is produced only at display time by
`displayRows` from that state. -/
theorem C1_publish_premerge_order (prev : List Row) (data : EligiblesData)
    (pd : PriceData) (hne : rawRowsOf data ≠ []) :
    ∃ m, handleSubmit (.ok data) (.ok pd) = .published m ∧
      eligiblesAfter prev (handleSubmit (.ok data) (.ok pd)) = m ∧
      m.map (fun r => (r.instance_type, r.vCPU, r.memory_GB)) =
        (rawRowsOf data).map (fun r => (r.instance_type, r.vCPU, r.memory_GB)) := by
  have h1 := handleSubmit_ok_ok data pd hne
  refine ⟨_, h1, by rw [h1]; rfl, ?_⟩
  rw [mergeRows, List.map_map]
  rfl

/-- Concrete check of C1 (amended) at a one-candidate run. -/
theorem C1_publish_premerge_order_witness :
    ∃ m, handleSubmit (.ok ⟨some [⟨"a", 1, 1, none⟩]⟩) (.ok ⟨none⟩) =
        .published m ∧
      eligiblesAfter [] (handleSubmit (.ok ⟨some [⟨"a", 1, 1, none⟩]⟩) (.ok ⟨none⟩)) = m ∧
      m.map (fun r => (r.instance_type, r.vCPU, r.memory_GB)) =
        (rawRowsOf ⟨some [⟨"a", 1, 1, none⟩]⟩).map
          (fun r => (r.instance_type, r.vCPU, r.memory_GB)) :=
  C1_publish_premerge_order [] ⟨some [⟨"a", 1, 1, none⟩]⟩ ⟨none⟩ (by decide)

/-- C3 counterexample — with a previous candidate list present, a run whose
eligible-candidates lookup fails reports the failure outcome but leaves the
component's candidate list empty, not at its previous value. -/
theorem C3_counterexample :
    handleSubmit (Except.error none) (Except.ok ⟨none⟩) =
      RunOutcome.fetchFailed "Failed to fetch eligible instances." ∧
      eligiblesAfter [⟨"m5.large", 2, 8, some 1⟩]
        (handleSubmit (Except.error none) (Except.ok ⟨none⟩)) = [] ∧
      ([⟨"m5.large", 2, 8, some 1⟩] : List Row) ≠ [] := by
  refine ⟨rfl, rfl, by decide⟩

/-- C3 amended — whenever the eligible-candidates lookup fails, the run
reports the fetch-failure outcome (server-supplied message when present
and non-empty, else the default) and publishes nothing; the component's
candidate list, cleared at the start of the run, ends empty rather than
keeping its previous value. -/
theorem C3_fetch_failure (prev : List Row) (errData : Option String)
    (priceRes : Except Unit PriceData) :
    handleSubmit (.error errData) priceRes =
      .fetchFailed (strOr errData "Failed to fetch eligible instances.") ∧
      eligiblesAfter prev (handleSubmit (.error errData) priceRes) = [] :=
  ⟨rfl, rfl⟩

/-- C4 counterexample — with a non-empty candidate set, a rejected batch
price call does not yield a publication with absent prices: the run ends
in the generic failure outcome, and in particular does not publish the
candidate list with its price marked absent. -/
theorem C4_counterexample :
    handleSubmit (Except.ok ⟨some [⟨"a", 1, 1, none⟩]⟩) (Except.error ()) =
      RunOutcome.runError "Something went wrong. Please try again." ∧
      handleSubmit (Except.ok ⟨some [⟨"a", 1, 1, none⟩]⟩) (Except.error ()) ≠
        RunOutcome.published [⟨"a", 1, 1, none⟩] := by
  refine ⟨by decide, by decide⟩

/-- C4 amended — publication with every price absent happens only when the
batch price call fulfills without a usable `rows` array; a rejected batch
price call instead aborts the run with the generic failure outcome and
nothing is published. -/
theorem C4_price_failure (data : EligiblesData) (hne : rawRowsOf data ≠ []) :
    (∃ m, handleSubmit (.ok data) (.ok ⟨none⟩) = .published m ∧
        m.length = (rawRowsOf data).length ∧
        ∀ r ∈ m, r.price_per_hour = none) ∧
      handleSubmit (.ok data) (.error ()) =
        .runError "Something went wrong. Please try again." := by
  refine ⟨⟨_, handleSubmit_ok_ok data ⟨none⟩ hne, ?_, ?_⟩,
    handleSubmit_ok_error data hne⟩
  · rw [mergeRows, List.length_map]
  · intro r hr
    rw [mergeRows] at hr
    obtain ⟨x, -, rfl⟩ := List.mem_map.1 hr
    rfl

/-- Concrete check of C4 (amended) at a one-candidate run. -/
theorem C4_price_failure_witness :
    (∃ m, handleSubmit (.ok ⟨some [⟨"b", 2, 4, none⟩]⟩) (.ok ⟨none⟩) =
        .published m ∧
        m.length = (rawRowsOf ⟨some [⟨"b", 2, 4, none⟩]⟩).length ∧
        ∀ r ∈ m, r.price_per_hour = none) ∧
      handleSubmit (.ok ⟨some [⟨"b", 2, 4, none⟩]⟩) (.error ()) =
        .runError "Something went wrong. Please try again." :=
  C4_price_failure ⟨some [⟨"b", 2, 4, none⟩]⟩ (by decide)

theorem countP_pointwise {α : Type} {p q : α → Bool} :
    ∀ {l : List α}, (∀ a ∈ l, p a = q a) → l.countP p = l.countP q := by
  intro l
  induction l with
  | nil => intro _; rfl
  | cons x xs ih =>
    intro h
    rw [List.countP_cons, List.countP_cons, h x (List.mem_cons_self x xs),
      ih fun a ha => h a (List.mem_cons_of_mem x ha)]

/-- C8 — when the eligible-candidates lookup returns 12 entries and the
batch price lookup yields a present (positive) price for exactly 8 of the
first 10, the published list has exactly 10 entries, 8 with present price
and 2 with absent price, and every published price is the looked-up price
normalized (missing or non-positive becomes absent). -/
theorem C8_scenario_counts (l : List Row) (prs : List PriceRow)
    (hlen : l.length = 12)
    (hcount : (l.take 10).countP
      (fun r => (normalizePrice (lookupPrice prs r.instance_type)).isSome) = 8) :
    ∃ m, handleSubmit (.ok ⟨some l⟩) (.ok ⟨some prs⟩) = .published m ∧
      m.length = 10 ∧
      m.countP (fun r => r.price_per_hour.isSome) = 8 ∧
      m.countP (fun r => r.price_per_hour.isNone) = 2 ∧
      ∀ r ∈ m, r.price_per_hour = normalizePrice (lookupPrice prs r.instance_type) := by
  have hlen10 : (l.take 10).length = 10 := by
    rw [List.length_take, hlen]
    omega
  have hne : rawRowsOf ⟨some l⟩ ≠ [] := by
    show l.take 10 ≠ []
    intro h
    rw [h] at hlen10
    simp at hlen10
  have h1 : handleSubmit (.ok ⟨some l⟩) (.ok ⟨some prs⟩) =
      .published (mergeRows (l.take 10) (lookupPrice prs)) :=
    handleSubmit_ok_ok ⟨some l⟩ ⟨some prs⟩ hne
  have hmlen : (mergeRows (l.take 10) (lookupPrice prs)).length = 10 := by
    rw [mergeRows, List.length_map, hlen10]
  have hsome : (mergeRows (l.take 10) (lookupPrice prs)).countP
      (fun r => r.price_per_hour.isSome) = 8 := by
    rw [mergeRows, List.countP_map]
    exact hcount
  refine ⟨_, h1, hmlen, hsome, ?_, ?_⟩
  · have hsum := List.length_eq_countP_add_countP
      (p := fun r : Row => r.price_per_hour.isSome)
      (l := mergeRows (l.take 10) (lookupPrice prs))
    have hpt : (mergeRows (l.take 10) (lookupPrice prs)).countP
        (fun a => decide ¬(a.price_per_hour.isSome = true)) =
        (mergeRows (l.take 10) (lookupPrice prs)).countP
          (fun r => r.price_per_hour.isNone) :=
      countP_pointwise fun a _ => by cases h : a.price_per_hour <;> simp [h]
    rw [hmlen, hsome, hpt] at hsum
    omega
  · intro r hr
    rw [mergeRows] at hr
    obtain ⟨x, -, rfl⟩ := List.mem_map.1 hr
    rfl

/-- Scenario-B witness data: 12 eligible candidates. -/
def scenarioRows : List Row :=
  [⟨"i01", 1, 1, none⟩, ⟨"i02", 2, 2, none⟩, ⟨"i03", 3, 3, none⟩,
    ⟨"i04", 4, 4, none⟩, ⟨"i05", 5, 5, none⟩, ⟨"i06", 6, 6, none⟩,
    ⟨"i07", 7, 7, none⟩, ⟨"i08", 8, 8, none⟩, ⟨"i09", 9, 9, none⟩,
    ⟨"i10", 10, 10, none⟩, ⟨"i11", 11, 11, none⟩, ⟨"i12", 12, 12, none⟩]

/-- Scenario-B witness data: prices for 8 of the first 10 candidates. -/
def scenarioPrices : List PriceRow :=
  [⟨"i01", some 1⟩, ⟨"i02", some 1⟩, ⟨"i03", some 1⟩, ⟨"i04", some 1⟩,
    ⟨"i05", some 1⟩, ⟨"i06", some 1⟩, ⟨"i07", some 1⟩, ⟨"i08", some 1⟩]

/-- Concrete check of C8 at the Scenario-B data. -/
theorem C8_scenario_counts_witness :
    ∃ m, handleSubmit (.ok ⟨some scenarioRows⟩) (.ok ⟨some scenarioPrices⟩) =
        .published m ∧
      m.length = 10 ∧
      m.countP (fun r => r.price_per_hour.isSome) = 8 ∧
      m.countP (fun r => r.price_per_hour.isNone) = 2 ∧
      ∀ r ∈ m, r.price_per_hour =
        normalizePrice (lookupPrice scenarioPrices r.instance_type) :=
  C8_scenario_counts scenarioRows scenarioPrices (by decide) (by decide)
